import Mathlib

/-!
Verification of `scripts/predicting_the_past_import.py`: the PRIS/webscrape
coordinate reconciliation, region filtering and deployment-timeline
derivation pipeline.  Python strings are modelled as `String`, rows of the
PRIS table as `List String`, machine floats on the decimal data appearing in
the table as `Rat`, and raised exceptions as `Except String`.  The external
fuzzywuzzy similarity scorer (`fuzz.ratio`) is an abstract parameter
`fuzz : String → String → Nat`, and the external lenient date parser
(`dateutil.parser.parse`) is an abstract parameter that concrete runs
instantiate with `date_parse`, a parser for the ISO `YYYY-MM-DD` dates used
throughout the PRIS database.
-/

deriving instance DecidableEq for Except

set_option maxRecDepth 100000

/-! ## Python string primitives, modelled on `List Char` so that every
definition is structurally recursive and evaluates inside the kernel. -/

/-- Lower-casing, as `str.lower()` acts on the ASCII letters of the data. -/
def pyLower (s : String) : String :=
  String.mk (s.toList.map Char.toLower)

/-- Upper-casing, as `str.upper()` acts on the ASCII letters of the data. -/
def pyUpper (s : String) : String :=
  String.mk (s.toList.map Char.toUpper)

/-- Leading and trailing whitespace removal, as `str.strip()`. -/
def trimList (l : List Char) : List Char :=
  ((l.dropWhile (·.isWhitespace)).reverse.dropWhile (·.isWhitespace)).reverse

/-- Python `str.strip()`. -/
def pyStrip (s : String) : String :=
  String.mk (trimList s.toList)

/-- Left-to-right, non-overlapping replacement of `pat` by `rep`, fuelled by
the length of the scanned list; `fuel = l.length` always suffices because
each step consumes at least one character. -/
def replaceAux (pat rep : List Char) : Nat → List Char → List Char
  | _, [] => []
  | 0, l => l
  | fuel + 1, c :: rest =>
    if pat.isPrefixOf (c :: rest) then
      rep ++ replaceAux pat rep fuel ((c :: rest).drop pat.length)
    else
      c :: replaceAux pat rep fuel rest

/-- Python `s.replace(pat, rep)`: left-to-right non-overlapping replacement.
With an empty pattern and empty replacement, Python returns `s` unchanged,
which the first branch reproduces for the only way this model is called. -/
def pyReplace (s pat rep : String) : String :=
  if pat.isEmpty then s
  else String.mk (replaceAux pat.toList rep.toList s.toList.length s.toList)

/-- Python `s.split(sep)` for a one-character separator: consecutive
separators produce empty fields, as in Python. -/
def splitOnChar (sep : Char) : List Char → List (List Char)
  | [] => [[]]
  | c :: rest =>
    let r := splitOnChar sep rest
    if c = sep then [] :: r
    else (c :: r.headD []) :: r.tail

/-- Index of the last occurrence of `c` in `l`, as Python `str.rfind`. -/
def lastIdxOf (c : Char) (l : List Char) : Option Nat :=
  match l.reverse.findIdx? (· = c) with
  | none => none
  | some j => some (l.length - 1 - j)

/-- Numeric value of a list of decimal digit characters. -/
def digitsVal (l : List Char) : Nat :=
  l.foldl (fun n c => n * 10 + (c.toNat - 48)) 0

/-! ## Python numeric primitives -/

/-- Python `int()` truncation toward zero of a rational. -/
def pyInt (q : Rat) : Int :=
  q.num.tdiv q.den

/-- Python `round()`: round half to even. -/
def pyRound (q : Rat) : Int :=
  let f := q.floor
  let r := q - (f : Rat)
  if r < 1 / 2 then f
  else if (1 / 2 : Rat) < r then f + 1
  else if f % 2 = 0 then f else f + 1

/-- Python `float(s)` on the plain decimal numerals that occur in the PRIS
capacity column: optional sign, digits, optional fractional part.  `none`
models the `ValueError` raised on a malformed numeral. -/
def pyFloat (s : String) : Option Rat :=
  let t := trimList s.toList
  let sgn : Int := match t with
    | '-' :: _ => -1
    | _ => 1
  let u : List Char := match t with
    | '-' :: rest => rest
    | '+' :: rest => rest
    | l => l
  match splitOnChar '.' u with
  | [ip] =>
    if !ip.isEmpty && ip.all (·.isDigit) then
      some ((sgn * (digitsVal ip : Int) : Int) : Rat)
    else none
  | [ip, fp] =>
    if (!ip.isEmpty || !fp.isEmpty) && ip.all (·.isDigit) && fp.all (·.isDigit) then
      some ((sgn : Rat) * ((digitsVal ip : Rat) + (digitsVal fp : Rat) / ((10 : Rat) ^ fp.length)))
    else none
  | _ => none

/-- The `is_int` helper of the script: returns `true` when `int(s)` would
succeed, i.e. on an optional sign followed by at least one decimal digit. -/
def is_int (s : String) : Bool :=
  let t : List Char := match s.toList with
    | '-' :: rest => rest
    | '+' :: rest => rest
    | l => l
  !t.isEmpty && t.all (·.isDigit)

/-! ## Calendar dates

`dateutil.parser.parse` is external to the repository; `date_parse` models it
on the ISO `YYYY-MM-DD` dates used throughout the PRIS database, rejecting
strings that are not valid calendar dates.  `toDays` counts days from the
Unix epoch (civil-from-days algorithm), so differences of `toDays` values
are the `timedelta.days` of the Python code. -/

structure PDate where
  year : Int
  month : Nat
  day : Nat
deriving Repr, DecidableEq

/-- Gregorian leap-year rule. -/
def leap (y : Int) : Bool :=
  y % 4 == 0 && (y % 100 != 0 || y % 400 == 0)

/-- Number of days in a month of a given year. -/
def daysInMonth (y : Int) (m : Nat) : Nat :=
  if m = 2 then (if leap y then 29 else 28)
  else if m = 4 ∨ m = 6 ∨ m = 9 ∨ m = 11 then 30
  else 31

/-- Model of the lenient date parser on the ISO `YYYY-MM-DD` format. -/
def date_parse (s : String) : Option PDate :=
  match splitOnChar '-' s.toList with
  | [ys, ms, ds] =>
    if ys.length == 4 && ys.all (·.isDigit) && !ms.isEmpty && ms.all (·.isDigit)
        && !ds.isEmpty && ds.all (·.isDigit) then
      let y : Int := (digitsVal ys : Int)
      let m := digitsVal ms
      let d := digitsVal ds
      if 1 ≤ m && m ≤ 12 && 1 ≤ d && d ≤ daysInMonth y m then
        some ⟨y, m, d⟩
      else none
    else none
  | _ => none

/-- Days since 1970-01-01 of a civil date (Hinnant's days-from-civil
algorithm, with C-style truncating division). -/
def toDays (d : PDate) : Int :=
  let y : Int := if d.month ≤ 2 then d.year - 1 else d.year
  let era : Int := Int.tdiv (if 0 ≤ y then y else y - 399) 400
  let yoe : Int := y - era * 400
  let mp : Nat := (d.month + 9) % 12
  let doy : Int := (Int.ofNat ((153 * mp + 2) / 5 + d.day)) - 1
  let doe : Int := yoe * 365 + Int.tdiv yoe 4 - Int.tdiv yoe 100 + doy
  era * 146097 + doe - 719468

/-! ## The embedded script

Rows of the PRIS table are lists of fields in the csv column order:
index 0 the country, 1 the unit name, 2 the reactor type, 3 the capacity,
10 the commercial date, 11 the shutdown date, 13 the latitude and 14 the
longitude (the two columns inserted by `import_pris`, defaulted to `""`).
The pandas dataframe is modelled as the list of its rows, and the row
assignments `prs[13] = ...` of the merge loop as updates of the row held by
the table. -/

abbrev Row := List String

/-- One `(name, long, lat)` record of the webscrape query
`SELECT name, long, lat FROM reactors_coordinates`. -/
structure GeoPoint where
  name : String
  long : String
  lat : String
deriving Repr, DecidableEq

/-- The `others` dictionary of `get_edge_cases`, in insertion order:
key = pris reactor name fragment, value = webscrape plant name fragment. -/
def get_edge_cases : List (String × String) :=
  [("OHI-", "Ōi"),
   ("ASCO-", "Ascó"),
   ("ROVNO-", "Rivne"),
   ("SHIN-KORI-", "Kori"),
   ("ANO-", "Arkansas One"),
   ("HANBIT-", "Yeonggwang"),
   ("FERMI-", "Enrico Fermi"),
   ("BALTIC-", "Kaliningrad"),
   ("COOK-", "Donald C. Cook"),
   ("HATCH-", "Edwin I. Hatch"),
   ("HARRIS-", "Shearon Harris"),
   ("SHIN-WOLSONG-", "Wolseong"),
   ("ST. ALBAN-", "Saint-Alban"),
   ("LASALLE-", "LaSalle County"),
   ("ZAPOROZHYE-", "Zaporizhzhya"),
   ("ROBINSON-", "H. B. Robinson"),
   ("SUMMER-", "Virgil C. Summer"),
   ("FARLEY-", "Joseph M. Farley"),
   ("ST. LAURENT ", "Saint-Laurent"),
   ("HADDAM NECK", "Connecticut1 Yankee"),
   ("FITZPATRICK", "James A. FitzPatrick"),
   ("HIGASHI DORI-1 (TOHOKU)", "Higashidōri")]

/-- `sanitize_webscrape_name`: lower-case, delete every occurrence of each
blacklisted facility-type word, strip, and collapse internal whitespace. -/
def sanitize_webscrape_name (name : String) : String :=
  let blacklist := ["nuclear", "power", "plant", "generating",
                    "station", "reactor", "atomic",
                    "energy", "center", "electric"]
  let name := pyLower name
  let name := blacklist.foldl (fun n b => pyReplace n b "") name
  let name := pyStrip name
  String.intercalate " " (((splitOnChar ' ' name.toList).map String.mk).filter (· != ""))

/-- `sanitize_pris_name`: lower-case; when the name contains a hyphen and its
last character passes `is_int`, truncate at `find('-')` when the remainder
after the first hyphen has no further hyphen, and otherwise at
`find('-') + remainder.find('-')`. -/
def sanitize_pris_name (name : String) : String :=
  let pris_name := pyLower name
  let cs := pris_name.toList
  match cs.findIdx? (· = '-') with
  | none => pris_name
  | some first =>
    if is_int (String.mk (cs.drop (cs.length - 1))) then
      match (cs.drop (first + 1)).findIdx? (· = '-') with
      | some off => String.mk (cs.take (first + off))
      | none => String.mk (cs.take first)
    else pris_name

/-- The two row assignments `prs[13] = web['lat']; prs[14] = web['long']`. -/
def set_coords (prs : Row) (web : GeoPoint) : Row :=
  (prs.set 13 web.lat).set 14 web.long

/-- Body of the inner loop of `merge_coordinates`: the effect of visiting one
`(geo point, reactor row)` pair on the reactor row, with the similarity
scorer `fuzz` abstract. -/
def merge_row_visit (fuzz : String → String → Nat) (others : List (String × String))
    (web : GeoPoint) (prs : Row) : Row :=
  let webscrape_name := sanitize_webscrape_name web.name
  let pris_name := sanitize_pris_name (prs.getD 1 "")
  if 78 < fuzz webscrape_name pris_name then
    set_coords prs web
  else
    others.foldl (fun r other =>
      if 80 < fuzz pris_name (pyLower other.1) then
        if 75 < fuzz webscrape_name (pyLower other.2) then set_coords r web else r
      else r) prs

/-- `merge_coordinates`: for every geo point of the webscrape cursor, visit
every row of the PRIS table; the resulting table is what `to_csv` writes. -/
def merge_coordinates (fuzz : String → String → Nat)
    (pris : List Row) (coords : List GeoPoint) : List Row :=
  let others := get_edge_cases
  coords.foldl (fun pris web => pris.map (merge_row_visit fuzz others web)) pris

/-- Message of the `ValueError` raised by `float()` on a malformed numeral. -/
def float_error (capacity : String) : String :=
  "could not convert string to float: " ++ capacity

/-- `confirm_deployment`: eligible when the commercial date string is longer
than 4 characters, the capacity converts and exceeds 400, and the date
parses; a parse failure is swallowed by the bare `except`.  The `and` of the
guard short-circuits, so `float(capacity)` is evaluated (and can raise) only
when `len(date_str) > 4`. -/
def confirm_deployment (parse : String → Option PDate)
    (date_str capacity : String) : Except String Bool :=
  if date_str.length > 4 then
    match pyFloat capacity with
    | none => .error (float_error capacity)
    | some c =>
      if c > 400 then
        match parse date_str with
        | some _ => .ok true
        | none => .ok false
      else .ok false
  else .ok false

/-- The `ASIA` country set of `select_region`. -/
def ASIA : List String :=
  ["IRAN", "JAPAN", "KAZAKHSTAN",
   "BANGLADESH", "CHINA", "INDIA",
   "UNITED ARAB EMIRATES", "VIETNAM",
   "PAKISTAN", "PHILIPPINES", "SOUTH KOREA"]

/-- The `UNITED_STATES` country set of `select_region`. -/
def UNITED_STATES : List String := ["UNITED STATES"]

/-- The `SOUTH_AMERICA` country set of `select_region`. -/
def SOUTH_AMERICA : List String := ["ARGENTINA", "BRAZIL"]

/-- The `NORTH_AMERICA` country set of `select_region`. -/
def NORTH_AMERICA : List String := ["CANADA", "MEXICO", "UNITED STATES"]

/-- The `EUROPE` country set of `select_region`. -/
def EUROPE : List String :=
  ["UKRAINE", "UNITED KINGDOM",
   "POLAND", "ROMANIA", "RUSSIA",
   "BELARUS", "BELGIUM", "BULGARIA",
   "GERMANY", "ITALY", "NETHERLANDS",
   "SWEDEN", "SWITZERLAND", "TURKEY",
   "SLOVENIA", "SOVIET UNION", "SPAIN",
   "CZECHOSLOVAKIA", "FINLAND", "FRANCE"]

/-- The `AFRICA` country set of `select_region`. -/
def AFRICA : List String := ["EGYPT", "MOROCCO", "SOUTH AFRICA", "TUNISIA"]

/-- The `ALL` union of `select_region` (membership order is irrelevant). -/
def ALL : List String :=
  SOUTH_AMERICA ++ NORTH_AMERICA ++ EUROPE ++ ASIA ++ AFRICA ++ UNITED_STATES

/-- The `regions` dictionary of `select_region`. -/
def regions : List (String × List String) :=
  [("ASIA", ASIA),
   ("AFRICA", AFRICA),
   ("EUROPE", EUROPE),
   ("SOUTH_AMERICA", SOUTH_AMERICA),
   ("NORTH_AMERICA", NORTH_AMERICA),
   ("UNITED_STATES", UNITED_STATES),
   ("ALL", ALL)]

/-- The row loop of `select_region`: keep the rows whose upper-cased country
is in the requested region set and which `confirm_deployment` accepts; an
exception raised by `confirm_deployment` aborts the whole call. -/
def select_rows (parse : String → Option PDate) (rset : List String) :
    List Row → Except String (List Row)
  | [] => .ok []
  | row :: rest =>
    if pyUpper (row.getD 0 "") ∈ rset then
      match confirm_deployment parse (row.getD 10 "") (row.getD 3 "") with
      | .error e => .error e
      | .ok true =>
        match select_rows parse rset rest with
        | .error e => .error e
        | .ok tail => .ok (row :: tail)
      | .ok false => select_rows parse rset rest
    else select_rows parse rset rest

/-- `select_region`: raise `ValueError(region + 'is not a valid region')`
when the upper-cased region name is not a key of `regions`, before touching
any row; otherwise filter the rows. -/
def select_region (parse : String → Option PDate)
    (in_list : List Row) (region : String) : Except String (List Row) :=
  match List.lookup (pyUpper region) regions with
  | none => .error (region ++ "is not a valid region")
  | some rset => select_rows parse rset in_list

/-- `get_lifetime`: 720 months when the shutdown date is blank, otherwise the
day difference of the parsed dates divided by `365.0 / 12` and truncated by
`int()`; a date that fails to parse raises. -/
def get_lifetime (parse : String → Option PDate) (in_row : Row) : Except String Int :=
  let comm_date := in_row.getD 10 ""
  let shutdown_date := in_row.getD 11 ""
  if (pyStrip shutdown_date).isEmpty then .ok 720
  else
    let n_days_month : Rat := 365 / 12
    match parse shutdown_date, parse comm_date with
    | some sd, some cd =>
      .ok (pyInt (((toDays sd - toDays cd : Int) : Rat) / n_days_month))
    | _, _ => .error "Unknown string format"

/-- `os.path.dirname` (posix): everything before the last slash, with
trailing slashes stripped unless the head is all slashes. -/
def dirname (p : String) : String :=
  let l := p.toList
  match lastIdxOf '/' l with
  | none => ""
  | some i =>
    let head := l.take (i + 1)
    if head.all (· = '/') then String.mk head
    else String.mk ((head.reverse.dropWhile (· = '/')).reverse)

/-- The file-name normalization of the inner loop of `get_buildtime`:
`reactor.replace(os.path.dirname(reactor), '').replace('/', '')`. -/
def computed_file_name (reactor : String) : String :=
  pyReplace (pyReplace reactor (dirname reactor) "") "/" ""

/-- The reactor name as used for file matching: spaces become underscores. -/
def xml_name (row : Row) : String :=
  pyReplace (row.getD 1 "") " " "_"

/-- One deployment entry: reactor name, country, buildtime in months. -/
abbrev BuildMap := List (String × String × Int)

/-- Python `dict.update({k: v})`: replace the value in place when the key is
present, otherwise append the binding. -/
def updateAssoc (d : BuildMap) (k : String) (v : String × Int) : BuildMap :=
  if d.any (fun p => p.1 == k) then
    d.map (fun p => if p.1 == k then (k, v.1, v.2) else p)
  else d ++ [(k, v.1, v.2)]

/-- Body of the inner path loop of `get_buildtime` for one reactor row. -/
def buildtime_step (row : Row) (delta : Int) (d : BuildMap) (reactor : String) : BuildMap :=
  let name := xml_name row
  let country := row.getD 0 ""
  let file_name := computed_file_name reactor
  if name ++ ".xml" == file_name then updateAssoc d name (country, delta) else d

/-- The inner path loop of `get_buildtime` for one reactor row. -/
def buildtime_row (row : Row) (delta : Int) (path_list : List String)
    (dict : BuildMap) : BuildMap :=
  path_list.foldl (buildtime_step row delta) dict

/-- The row loop of `get_buildtime`: parse the commercial date (raising on
failure), compute the month offset, and record the entry for every path
whose normalized file name matches. -/
def get_buildtime_aux (parse : String → Option PDate) (start_year : Int)
    (path_list : List String) : List Row → BuildMap → Except String BuildMap
  | [], dict => .ok dict
  | row :: rest, dict =>
    match parse (row.getD 10 "") with
    | none => .error ("Unknown string format: " ++ row.getD 10 "")
    | some comm =>
      let delta : Int := (comm.year - start_year) * 12 + (comm.month : Int)
        + pyRound ((comm.day : Rat) / ((365 : Rat) / 12))
      get_buildtime_aux parse start_year path_list rest
        (buildtime_row row delta path_list dict)

/-- `get_buildtime(in_list, start_year, path_list)`. -/
def get_buildtime (parse : String → Option PDate) (in_list : List Row)
    (start_year : Int) (path_list : List String) : Except String BuildMap :=
  get_buildtime_aux parse start_year path_list in_list []

/-! ## Specification-side definitions -/

/-- The condition under which, per the specification of the reconciler, a geo
point's coordinates are assigned to a reactor row: direct similarity above
78, or some edge-case entry whose key matches the reactor name above 80 and
whose value matches the geo name above 75. -/
def coords_match (fuzz : String → String → Nat) (others : List (String × String))
    (w p : String) : Prop :=
  78 < fuzz w p ∨ ∃ kv ∈ others, 80 < fuzz p (pyLower kv.1) ∧ 75 < fuzz w (pyLower kv.2)

instance coords_match_decidable (fuzz : String → String → Nat)
    (others : List (String × String)) (w p : String) :
    Decidable (coords_match fuzz others w p) := by
  unfold coords_match; infer_instance

/-- The reactor-name normalizer as the specification words it: lower-case;
when the name contains a hyphen and ends in a numeral, truncate at the first
hyphen, or, when a second hyphen follows it, at the first hyphen's position
plus the offset of the second hyphen within the remainder after the first. -/
def normalize_reactor_name (raw : String) : String :=
  let low := pyLower raw
  let cs := low.toList
  match cs.findIdx? (· = '-'), (cs.getLastD ' ').isDigit with
  | some first, true =>
    match (cs.drop (first + 1)).findIdx? (· = '-') with
    | some off => String.mk (cs.take (first + off))
    | none => String.mk (cs.take first)
  | _, _ => low

/-- The final path component of a path (after the last slash). -/
def last_component (p : String) : String :=
  String.mk ((splitOnChar '/' p.toList).getLastD [])

/-- A similarity scorer giving 100 to identical strings and 0 to distinct
ones, used to instantiate the abstract `fuzz.ratio` parameter in concrete
runs (fuzzywuzzy's ratio is 100 exactly on identical strings). -/
def exact_score (a b : String) : Nat :=
  if a = b then 100 else 0

/-- A synthetic PRIS row: country, name, a PWR type, capacity 900, a
commercial date, and empty coordinate fields at indices 13 and 14. -/
def reactor_row (country name : String) : Row :=
  [country, name, "PWR", "900", "", "", "", "", "", "", "1985-06-01", "", "", "", ""]

/-- The 3-row synthetic reactor table of the end-to-end property. -/
def pris3 : List Row :=
  [reactor_row "FRANCE" "alpha", reactor_row "JAPAN" "beta", reactor_row "CANADA" "gamma"]

/-- The 2-row synthetic geo table: exactly one name ("alpha") occurs in the
reactor table. -/
def geo2 : List GeoPoint :=
  [⟨"alpha", "10.5", "42.0"⟩, ⟨"delta", "3.5", "7.0"⟩]

/-- A synthetic row whose commercial date is 1980-01-01 and whose shutdown
date is 2010-01-01. -/
def lifetime_row : Row :=
  ["", "", "", "", "", "", "", "", "", "", "1980-01-01", "2010-01-01"]

/-! ## Supporting lemmas -/

theorem set_coords_set_coords (r : Row) (w1 w2 : GeoPoint) :
    set_coords (set_coords r w1) w2 = set_coords r w2 := by
  simp only [set_coords]
  rw [List.set_comm w1.long w2.lat (r.set 13 w1.lat) (by decide), List.set_set, List.set_set]

theorem getD_one_set_coords (r : Row) (w : GeoPoint) :
    (set_coords r w).getD 1 "" = r.getD 1 "" := by
  simp only [set_coords, List.getD_eq_getElem?_getD]
  rw [List.getElem?_set_ne (by decide), List.getElem?_set_ne (by decide)]

theorem getD_13_set_coords (r : Row) (w : GeoPoint) (h : 14 < r.length) :
    (set_coords r w).getD 13 "" = w.lat := by
  simp only [set_coords, List.getD_eq_getElem?_getD]
  rw [List.getElem?_set_ne (by decide),
    List.getElem?_set_self (Nat.lt_trans (by decide) h)]
  rfl

theorem getD_14_set_coords (r : Row) (w : GeoPoint) (h : 14 < r.length) :
    (set_coords r w).getD 14 "" = w.long := by
  simp only [set_coords, List.getD_eq_getElem?_getD]
  rw [List.getElem?_set_self (by rw [List.length_set]; exact h)]
  rfl

theorem foldl_edge (fuzz : String → String → Nat) (w p : String) (web : GeoPoint)
    (l : List (String × String)) (r : Row) :
    (l.foldl (fun r other =>
      if 80 < fuzz p (pyLower other.1) then
        if 75 < fuzz w (pyLower other.2) then set_coords r web else r
      else r) r)
    = if ∃ kv ∈ l, 80 < fuzz p (pyLower kv.1) ∧ 75 < fuzz w (pyLower kv.2)
      then set_coords r web else r := by
  induction l generalizing r with
  | nil => simp
  | cons kv t ih =>
    have hcons : (∃ x ∈ kv :: t, 80 < fuzz p (pyLower x.1) ∧ 75 < fuzz w (pyLower x.2)) ↔
        ((80 < fuzz p (pyLower kv.1) ∧ 75 < fuzz w (pyLower kv.2)) ∨
          ∃ x ∈ t, 80 < fuzz p (pyLower x.1) ∧ 75 < fuzz w (pyLower x.2)) :=
      List.exists_mem_cons_iff _ kv t
    have hstep : ∀ r' : Row,
        (if 80 < fuzz p (pyLower kv.1) then
          if 75 < fuzz w (pyLower kv.2) then set_coords r' web else r'
        else r')
        = if 80 < fuzz p (pyLower kv.1) ∧ 75 < fuzz w (pyLower kv.2) then
            set_coords r' web else r' := by
      intro r'
      by_cases h1 : 80 < fuzz p (pyLower kv.1) <;>
        by_cases h2 : 75 < fuzz w (pyLower kv.2) <;> simp [h1, h2]
    simp only [List.foldl_cons]
    rw [hstep, ih]
    by_cases hkv : 80 < fuzz p (pyLower kv.1) ∧ 75 < fuzz w (pyLower kv.2) <;>
      by_cases hex : ∃ x ∈ t, 80 < fuzz p (pyLower x.1) ∧ 75 < fuzz w (pyLower x.2) <;>
      simp [hkv, hex, hcons, set_coords_set_coords]

theorem merge_row_visit_eq (fuzz : String → String → Nat) (others : List (String × String))
    (web : GeoPoint) (prs : Row) :
    merge_row_visit fuzz others web prs =
      if coords_match fuzz others (sanitize_webscrape_name web.name)
          (sanitize_pris_name (prs.getD 1 "")) then set_coords prs web else prs := by
  unfold merge_row_visit coords_match
  by_cases h0 : 78 < fuzz (sanitize_webscrape_name web.name) (sanitize_pris_name (prs.getD 1 ""))
  · rw [if_pos h0, if_pos (Or.inl h0)]
  · rw [if_neg h0, foldl_edge]
    by_cases hex : ∃ kv ∈ others,
        80 < fuzz (sanitize_pris_name (prs.getD 1 "")) (pyLower kv.1) ∧
        75 < fuzz (sanitize_webscrape_name web.name) (pyLower kv.2)
    · rw [if_pos hex, if_pos (Or.inr hex)]
    · rw [if_neg hex, if_neg (fun hc => hc.elim h0 hex)]

theorem merge_coordinates_getD (fuzz : String → String → Nat) (coords : List GeoPoint)
    (pris : List Row) (i : Nat) (h : i < pris.length) :
    (merge_coordinates fuzz pris coords).getD i [] =
      coords.foldl (fun r web => merge_row_visit fuzz get_edge_cases web r)
        (pris.getD i []) := by
  unfold merge_coordinates
  induction coords generalizing pris with
  | nil => rfl
  | cons web t ih =>
    rw [List.foldl_cons, List.foldl_cons,
      ih (pris.map (merge_row_visit fuzz get_edge_cases web)) (by simpa using h)]
    congr 1
    rw [List.getD_eq_getElem?_getD, List.getD_eq_getElem?_getD, List.getElem?_map,
      List.getElem?_eq_getElem h]
    rfl

theorem foldl_visit_no_match (fuzz : String → String → Nat) (geos : List GeoPoint) (row : Row)
    (h : ∀ g ∈ geos, ¬ coords_match fuzz get_edge_cases (sanitize_webscrape_name g.name)
      (sanitize_pris_name (row.getD 1 ""))) :
    geos.foldl (fun r web => merge_row_visit fuzz get_edge_cases web r) row = row := by
  induction geos with
  | nil => rfl
  | cons g t ih =>
    rw [List.foldl_cons, merge_row_visit_eq, if_neg (h g (List.mem_cons_self g t)),
      ih (fun g' hg' => h g' (List.mem_cons_of_mem g hg'))]

theorem drop_last (l : List Char) : ∀ d : Char, l ≠ [] → l.drop (l.length - 1) = [l.getLastD d] := by
  induction l with
  | nil => intro d h; exact absurd rfl h
  | cons a t ih =>
    intro d _
    cases t with
    | nil => rfl
    | cons b t' =>
      have h1 : (a :: b :: t').length - 1 = (b :: t').length := by simp
      rw [h1, List.getLastD_cons, List.length_cons, List.drop_succ_cons]
      have h2 : (b :: t').length - 1 = t'.length := by simp
      rw [← h2, ih a (by simp)]

theorem is_int_singleton (c : Char) : is_int (String.mk [c]) = c.isDigit := by
  unfold is_int
  by_cases h1 : c = '-'
  · subst h1; rfl
  · by_cases h2 : c = '+'
    · subst h2; rfl
    · have : (String.mk [c]).toList = [c] := rfl
      rw [this]
      simp only []
      split
      · next rest heq =>
        exact absurd (List.head_eq_of_cons_eq heq) h1
      · next rest heq =>
        exact absurd (List.head_eq_of_cons_eq heq) h2
      · simp

theorem sanitize_eq_normalize (s : String) :
    sanitize_pris_name s = normalize_reactor_name s := by
  unfold sanitize_pris_name normalize_reactor_name
  dsimp only
  cases hf : (pyLower s).toList.findIdx? (· = '-') with
  | none => rfl
  | some first =>
    have hne : (pyLower s).toList ≠ [] := by
      intro h
      rw [h, List.findIdx?_nil] at hf
      exact Option.noConfusion hf
    rw [drop_last _ ' ' hne, is_int_singleton]
    cases hd : ((pyLower s).toList.getLastD ' ').isDigit with
    | true => rfl
    | false => rfl

theorem confirm_deployment_error_shape (parse : String → Option PDate) (d c e : String)
    (h : confirm_deployment parse d c = .error e) : e = float_error c := by
  unfold confirm_deployment at h
  split at h
  · cases hp : pyFloat c with
    | none =>
      simp only [hp] at h
      injection h with h'
      exact h'.symm
    | some v =>
      simp only [hp] at h
      split at h
      · cases hq : parse d <;> simp only [hq] at h <;> exact Except.noConfusion h
      · exact Except.noConfusion h
  · exact Except.noConfusion h

theorem select_rows_error_shape (parse : String → Option PDate) (rset : List String) :
    ∀ (l : List Row) (e : String), select_rows parse rset l = .error e →
      ∃ cap, e = float_error cap := by
  intro l
  induction l with
  | nil => intro e h; exact Except.noConfusion h
  | cons row rest ih =>
    intro e h
    unfold select_rows at h
    split at h
    · cases hc : confirm_deployment parse (row.getD 10 "") (row.getD 3 "") with
      | error e2 =>
        simp only [hc] at h
        injection h with h'
        exact ⟨row.getD 3 "", h' ▸ confirm_deployment_error_shape parse _ _ _ hc⟩
      | ok b =>
        simp only [hc] at h
        cases b with
        | true =>
          cases hr : select_rows parse rset rest with
          | error e2 =>
            simp only [hr] at h
            injection h with h'
            exact h' ▸ ih e2 hr
          | ok tail =>
            simp only [hr] at h
            exact Except.noConfusion h
        | false => exact ih e h
    · exact ih e h

theorem updateAssoc_mem (d : BuildMap) (k : String) (v : String × Int)
    (ent : String × String × Int) (h : ent ∈ updateAssoc d k v) :
    ent ∈ d ∨ ent = (k, v.1, v.2) := by
  unfold updateAssoc at h
  split at h
  · obtain ⟨p, hp, hpe⟩ := List.mem_map.mp h
    by_cases hk : (p.1 == k) = true
    · right; rw [← hpe, if_pos hk]
    · left; rw [← hpe, if_neg hk]; exact hp
  · rcases List.mem_append.mp h with h' | h'
    · exact Or.inl h'
    · right
      simpa using h'

theorem buildtime_step_mem (row : Row) (delta : Int) (q : String)
    (dict : BuildMap) (ent : String × String × Int)
    (h : ent ∈ buildtime_step row delta dict q) :
    ent ∈ dict ∨ (xml_name row ++ ".xml" = computed_file_name q ∧
      ent = (xml_name row, row.getD 0 "", delta)) := by
  unfold buildtime_step at h
  dsimp only at h
  by_cases hq : (xml_name row ++ ".xml" == computed_file_name q) = true
  · rw [if_pos hq] at h
    rcases updateAssoc_mem _ _ _ _ h with h' | h'
    · exact Or.inl h'
    · exact Or.inr ⟨eq_of_beq hq, h'⟩
  · rw [if_neg hq] at h
    exact Or.inl h

theorem buildtime_row_mem (row : Row) (delta : Int) (pl : List String)
    (dict : BuildMap) (ent : String × String × Int)
    (h : ent ∈ buildtime_row row delta pl dict) :
    ent ∈ dict ∨ ((∃ p ∈ pl, xml_name row ++ ".xml" = computed_file_name p) ∧
      ent = (xml_name row, row.getD 0 "", delta)) := by
  unfold buildtime_row at h
  induction pl generalizing dict with
  | nil => exact Or.inl h
  | cons q t ih =>
    rw [List.foldl_cons] at h
    rcases ih _ h with h' | h'
    · rcases buildtime_step_mem _ _ _ _ _ h' with h'' | h''
      · exact Or.inl h''
      · exact Or.inr ⟨⟨q, List.mem_cons_self q t, h''.1⟩, h''.2⟩
    · exact Or.inr ⟨⟨h'.1.choose, List.mem_cons_of_mem q h'.1.choose_spec.1,
        h'.1.choose_spec.2⟩, h'.2⟩

theorem get_buildtime_aux_mem (parse : String → Option PDate) (sy : Int)
    (pl : List String) :
    ∀ (rows : List Row) (dict out : BuildMap),
      get_buildtime_aux parse sy pl rows dict = .ok out →
      ∀ ent ∈ out, ent ∈ dict ∨
        ∃ row ∈ rows, ∃ dte, parse (row.getD 10 "") = some dte ∧
          (∃ p ∈ pl, xml_name row ++ ".xml" = computed_file_name p) ∧
          ent = (xml_name row, row.getD 0 "",
            (dte.year - sy) * 12 + (dte.month : Int)
              + pyRound ((dte.day : Rat) / ((365 : Rat) / 12))) := by
  intro rows
  induction rows with
  | nil =>
    intro dict out h ent hent
    left
    injection h with h'
    exact h' ▸ hent
  | cons row rest ih =>
    intro dict out h ent hent
    unfold get_buildtime_aux at h
    cases hp : parse (row.getD 10 "") with
    | none =>
      simp only [hp] at h
      exact Except.noConfusion h
    | some dte =>
      simp only [hp] at h
      rcases ih _ _ h ent hent with h' | h'
      · rcases buildtime_row_mem _ _ _ _ _ h' with h'' | h''
        · exact Or.inl h''
        · exact Or.inr ⟨row, List.mem_cons_self row rest, dte, hp, h''.1, h''.2⟩
      · obtain ⟨row', hrow', rest'⟩ := h'
        exact Or.inr ⟨row', List.mem_cons_of_mem row hrow', rest'⟩

theorem lookup_regions_none (k : String)
    (h : k ∉ ["ASIA", "AFRICA", "EUROPE", "SOUTH_AMERICA", "NORTH_AMERICA",
      "UNITED_STATES", "ALL"]) :
    List.lookup k regions = none := by
  simp only [List.mem_cons, List.not_mem_nil, or_false, not_or] at h
  obtain ⟨h1, h2, h3, h4, h5, h6, h7⟩ := h
  simp [regions, List.lookup, beq_eq_false_iff_ne.mpr h1, beq_eq_false_iff_ne.mpr h2,
    beq_eq_false_iff_ne.mpr h3, beq_eq_false_iff_ne.mpr h4, beq_eq_false_iff_ne.mpr h5,
    beq_eq_false_iff_ne.mpr h6, beq_eq_false_iff_ne.mpr h7]

theorem lookup_regions_some (k : String)
    (h : k ∈ ["ASIA", "AFRICA", "EUROPE", "SOUTH_AMERICA", "NORTH_AMERICA",
      "UNITED_STATES", "ALL"]) :
    ∃ s, List.lookup k regions = some s := by
  simp only [List.mem_cons, List.not_mem_nil, or_false] at h
  rcases h with h | h | h | h | h | h | h <;> subst h <;> exact ⟨_, rfl⟩

/-! ## Claim theorems -/

/-- Claim C2 (confirmed): in `merge_coordinates`, for every geo point and
every reactor row, the geo point's latitude and longitude are assigned to
that row exactly when the similarity ratio between the normalized geo name
and the normalized reactor name exceeds 78, or, failing that, when some
edge-case table entry has ratio above 80 against the normalized reactor
name (lower-cased key) and ratio above 75 against the normalized geo name
(lower-cased value). -/
theorem merge_assignment_condition (fuzz : String → String → Nat)
    (web : GeoPoint) (prs : Row) :
    merge_row_visit fuzz get_edge_cases web prs =
      if coords_match fuzz get_edge_cases (sanitize_webscrape_name web.name)
          (sanitize_pris_name (prs.getD 1 "")) then set_coords prs web else prs :=
  merge_row_visit_eq fuzz get_edge_cases web prs

/-- Claim C3 (confirmed): `confirm_deployment` returns `True` exactly when
the date string is longer than 4 characters, the parsed capacity exceeds
400, and the date parses; it never raises when the capacity is well formed
(a date-parse failure yields `False`), and the three spec examples hold. -/
theorem confirm_deployment_eligibility :
    (∀ (parse : String → Option PDate) (d cap : String) (c : Rat),
      pyFloat cap = some c →
      ((confirm_deployment parse d cap = .ok true ↔
        4 < d.length ∧ 400 < c ∧ (parse d).isSome = true)
       ∧ ∀ e, confirm_deployment parse d cap ≠ .error e))
    ∧ confirm_deployment date_parse "1985-06-01" "900" = .ok true
    ∧ confirm_deployment date_parse "" "900" = .ok false
    ∧ confirm_deployment date_parse "1985-06-01" "300" = .ok false := by
  refine ⟨?_, by decide, by decide, by decide⟩
  intro parse d cap c hc
  unfold confirm_deployment
  by_cases hd : 4 < d.length
  · rw [if_pos hd]
    simp only [hc]
    by_cases h4 : (400 : Rat) < c
    · rw [if_pos h4]
      cases hq : parse d with
      | some p =>
        refine ⟨⟨fun _ => ⟨hd, h4, rfl⟩, fun _ => rfl⟩, ?_⟩
        intro e he; exact Except.noConfusion he
      | none =>
        refine ⟨⟨fun h => ?_, fun h => absurd h.2.2 (by simp)⟩, ?_⟩
        · injection h with h'; exact Bool.noConfusion h'
        · intro e he; exact Except.noConfusion he
    · rw [if_neg h4]
      refine ⟨⟨fun h => ?_, fun h => absurd h.2.1 h4⟩, ?_⟩
      · injection h with h'; exact Bool.noConfusion h'
      · intro e he; exact Except.noConfusion he
  · rw [if_neg hd]
    refine ⟨⟨fun h => ?_, fun h => absurd h.1 hd⟩, ?_⟩
    · injection h with h'; exact Bool.noConfusion h'
    · intro e he; exact Except.noConfusion he

theorem confirm_deployment_eligibility_witness :
    confirm_deployment date_parse "1985-06-01" "900" = .ok true :=
  (confirm_deployment_eligibility.1 date_parse "1985-06-01" "900" 900 (by decide)).1.mpr
    ⟨by decide, by decide, by decide⟩

/-- Claim C4 (confirmed): `get_lifetime` returns exactly 720 whenever the
shutdown field is blank (empty or whitespace), regardless of the commercial
field; otherwise it returns the whole number of days between the parsed
commercial and shutdown dates divided by 365/12 and truncated toward zero,
so commercial 1980-01-01 with shutdown 2010-01-01 yields 360. -/
theorem get_lifetime_spec :
    (∀ (parse : String → Option PDate) (row : Row),
      (pyStrip (row.getD 11 "")).isEmpty = true →
      get_lifetime parse row = .ok 720)
    ∧ (∀ (parse : String → Option PDate) (row : Row) (sd cd : PDate),
      (pyStrip (row.getD 11 "")).isEmpty = false →
      parse (row.getD 11 "") = some sd →
      parse (row.getD 10 "") = some cd →
      get_lifetime parse row =
        .ok (pyInt (((toDays sd - toDays cd : Int) : Rat) / (365 / 12))))
    ∧ get_lifetime date_parse lifetime_row = .ok 360 := by
  refine ⟨?_, ?_, by with_unfolding_all rfl⟩
  · intro parse row hblank
    unfold get_lifetime
    rw [if_pos hblank]
  · intro parse row sd cd hblank hsd hcd
    unfold get_lifetime
    rw [if_neg (by rw [hblank]; exact Bool.noConfusion)]
    simp only [hsd, hcd]

theorem get_lifetime_spec_witness :
    get_lifetime date_parse ["", "", "", "", "", "", "", "", "", "", "1999-05-05", " "]
      = .ok 720
    ∧ get_lifetime date_parse lifetime_row =
        .ok (pyInt (((toDays ⟨2010, 1, 1⟩ - toDays ⟨1980, 1, 1⟩ : Int) : Rat) / (365 / 12))) :=
  ⟨get_lifetime_spec.1 date_parse _ (by decide),
   get_lifetime_spec.2.1 date_parse lifetime_row ⟨2010, 1, 1⟩ ⟨1980, 1, 1⟩
     (by decide) (by decide) (by decide)⟩

/-- Claim C8 (confirmed): `sanitize_pris_name` lower-cases its input; when
the input contains a hyphen and ends in a numeral it truncates at the first
hyphen (no second hyphen after it) or at the first hyphen's position plus
the offset of the second hyphen within the remainder after the first; it
agrees everywhere with the specification's `normalize_reactor_name`,
`"OHI-1"` maps to `"ohi"`, and names without a trailing numeral after a
hyphen are only lower-cased. -/
theorem sanitize_pris_name_spec :
    (∀ s : String, sanitize_pris_name s = normalize_reactor_name s)
    ∧ sanitize_pris_name "OHI-1" = "ohi"
    ∧ ∀ s : String,
        ((pyLower s).toList.findIdx? (· = '-') = none ∨
          ((pyLower s).toList.getLastD ' ').isDigit = false) →
        sanitize_pris_name s = pyLower s := by
  refine ⟨sanitize_eq_normalize, by decide, ?_⟩
  intro s h
  rw [sanitize_eq_normalize]
  unfold normalize_reactor_name
  dsimp only
  rcases h with h | h
  · rw [h]
  · rw [h]
    cases (pyLower s).toList.findIdx? (· = '-') <;> rfl

theorem sanitize_pris_name_spec_witness :
    sanitize_pris_name "PARIS" = pyLower "PARIS" :=
  sanitize_pris_name_spec.2.2 "PARIS" (Or.inl (by decide))

/-- Claim C9 (counterexample): with an empty commercial-date string and the
malformed capacity `"abc"`, the eligibility check returns `False` instead
of raising, because the short-circuiting guard never evaluates
`float(capacity)` when `len(date_str) <= 4`. -/
theorem confirm_deployment_short_date_cex :
    pyFloat "abc" = none ∧ confirm_deployment date_parse "" "abc" = .ok false :=
  ⟨by decide, by decide⟩

/-- Claim C9 (corrected): for every record whose commercial-date string is
longer than 4 characters and whose capacity string is not a well-formed
number, the eligibility check propagates the numeric-conversion failure. -/
theorem confirm_deployment_capacity_error :
    ∀ (parse : String → Option PDate) (d cap : String),
      4 < d.length → pyFloat cap = none →
      confirm_deployment parse d cap = .error (float_error cap) := by
  intro parse d cap hlen hcap
  unfold confirm_deployment
  rw [if_pos hlen]
  simp only [hcap]

theorem confirm_deployment_capacity_error_witness :
    confirm_deployment date_parse "1985-06-01" "abc" = .error (float_error "abc") :=
  confirm_deployment_capacity_error date_parse "1985-06-01" "abc" (by decide) (by decide)

/-- Claim C5 (confirmed): every entry of the `get_buildtime` result carries,
for the originating reactor row's parsed commercial date, the offset
`(year − start_year)·12 + month + round(day / (365/12))` in months, with no
`month − 1` normalization of the month term. -/
theorem get_buildtime_offset_formula :
    ∀ (parse : String → Option PDate) (in_list : List Row) (start_year : Int)
      (path_list : List String) (out : BuildMap),
      get_buildtime parse in_list start_year path_list = .ok out →
      ∀ n c δ, (n, c, δ) ∈ out →
        ∃ row ∈ in_list, ∃ dte, parse (row.getD 10 "") = some dte ∧
          n = xml_name row ∧ c = row.getD 0 "" ∧
          δ = (dte.year - start_year) * 12 + (dte.month : Int)
              + pyRound ((dte.day : Rat) / ((365 : Rat) / 12)) := by
  intro parse in_list sy pl out h n c δ hmem
  rcases get_buildtime_aux_mem parse sy pl in_list [] out h (n, c, δ) hmem with h' | h'
  · exact absurd h' (List.not_mem_nil _)
  · obtain ⟨row, hrow, dte, hp, _, hent⟩ := h'
    injection hent with h1 h2
    injection h2 with h2 h3
    exact ⟨row, hrow, dte, hp, h1, h2, h3⟩

theorem get_buildtime_offset_formula_witness :
    ∃ row ∈ [["c", "n", "", "", "", "", "", "", "", "", "1980-01-01"]],
      ∃ dte, date_parse (row.getD 10 "") = some dte ∧
        "n" = xml_name row ∧ "c" = row.getD 0 "" ∧
        (1 : Int) = (dte.year - 1980) * 12 + (dte.month : Int)
            + pyRound ((dte.day : Rat) / ((365 : Rat) / 12)) :=
  get_buildtime_offset_formula date_parse
    [["c", "n", "", "", "", "", "", "", "", "", "1980-01-01"]] 1980
    ["reactors/n.xml"] [("n", "c", 1)] (by with_unfolding_all rfl) "n" "c" 1 (by decide)

/-- Claim C10 (counterexample): with the single path `"d/nd.xml"`, whose
final component is `"nd.xml"`, the reactor named `"n"` still receives a
deployment entry: the code deletes every occurrence of the path's directory
string (here `"d"`) from the whole path and then every slash, yielding
`"n.xml"`, so the claim's "final component is exactly name.xml" fails. -/
theorem get_buildtime_basename_cex :
    get_buildtime date_parse [["c", "n", "", "", "", "", "", "", "", "", "1980-01-01"]] 1980
      ["d/nd.xml"] = .ok [("n", "c", 1)]
    ∧ ∀ p ∈ ["d/nd.xml"], last_component p ≠ "n" ++ ".xml" :=
  ⟨by with_unfolding_all rfl, by decide⟩

/-- Claim C10 (corrected): a selected reactor row obtains an entry only if
`path_list` holds a path from which deleting every occurrence of the path's
directory name and then every slash yields exactly the reactor's
space-to-underscore name followed by `.xml`; an eligible reactor with no
such path is silently omitted. -/
theorem get_buildtime_path_required :
    ∀ (parse : String → Option PDate) (in_list : List Row) (start_year : Int)
      (path_list : List String) (out : BuildMap),
      get_buildtime parse in_list start_year path_list = .ok out →
      ∀ n c δ, (n, c, δ) ∈ out →
        ∃ p ∈ path_list, n ++ ".xml" = computed_file_name p := by
  intro parse in_list sy pl out h n c δ hmem
  rcases get_buildtime_aux_mem parse sy pl in_list [] out h (n, c, δ) hmem with h' | h'
  · exact absurd h' (List.not_mem_nil _)
  · obtain ⟨row, _, dte, _, hpath, hent⟩ := h'
    injection hent with h1 _
    rw [h1]
    exact hpath

theorem get_buildtime_path_required_witness :
    ∃ p ∈ ["reactors/n.xml"], "n" ++ ".xml" = computed_file_name p :=
  get_buildtime_path_required date_parse
    [["c", "n", "", "", "", "", "", "", "", "", "1980-01-01"]] 1980
    ["reactors/n.xml"] [("n", "c", 1)] (by with_unfolding_all rfl) "n" "c" 1 (by decide)

/-- Claim C6 (confirmed): `select_region` raises the configuration error
exactly when the upper-cased region name is not among the seven region
keys — before touching any row, with the same error for every input list —
while for a valid region any raised error is a capacity conversion
failure; `ATLANTIS` raises, and a `FRANCE` row passes the `EUROPE`
membership test. -/
theorem select_region_validation :
    (∀ (parse : String → Option PDate) (l : List Row) (r : String),
      pyUpper r ∉ ["ASIA", "AFRICA", "EUROPE", "SOUTH_AMERICA", "NORTH_AMERICA",
        "UNITED_STATES", "ALL"] →
      select_region parse l r = .error (r ++ "is not a valid region"))
    ∧ (∀ (parse : String → Option PDate) (l : List Row) (r e : String),
      pyUpper r ∈ ["ASIA", "AFRICA", "EUROPE", "SOUTH_AMERICA", "NORTH_AMERICA",
        "UNITED_STATES", "ALL"] →
      select_region parse l r = .error e → ∃ cap, e = float_error cap)
    ∧ (∀ (parse : String → Option PDate) (l : List Row),
      select_region parse l "ATLANTIS" = .error ("ATLANTIS" ++ "is not a valid region"))
    ∧ "FRANCE" ∈ EUROPE
    ∧ select_region date_parse [reactor_row "FRANCE" "alpha"] "EUROPE"
        = .ok [reactor_row "FRANCE" "alpha"] := by
  refine ⟨?_, ?_, ?_, by decide, by decide⟩
  · intro parse l r h
    unfold select_region
    rw [lookup_regions_none _ h]
  · intro parse l r e hmem hsel
    obtain ⟨s, hs⟩ := lookup_regions_some _ hmem
    unfold select_region at hsel
    rw [hs] at hsel
    exact select_rows_error_shape parse s l e hsel
  · intro parse l
    rfl

theorem select_region_validation_witness :
    select_region date_parse [] "BADREGION" = .error ("BADREGION" ++ "is not a valid region")
    ∧ ∃ cap, float_error "abc" = float_error cap :=
  ⟨select_region_validation.1 date_parse [] "BADREGION" (by decide),
   select_region_validation.2.1 date_parse
     [["FRANCE", "x", "", "abc", "", "", "", "", "", "", "1985-06-01"]] "EUROPE"
     (float_error "abc") (by decide) (by decide)⟩

/-- Claim C7 (confirmed): when two geo points both match the same reactor
row above threshold, the row's final coordinate fields hold the values of
the geo point that occurs later in iteration order (last write wins), so
the merged result changes when the geo points are reordered; and a row
matched by no geo point is left unchanged (empty coordinate fields stay
empty). -/
theorem merge_last_write_wins (fuzz : String → String → Nat) (prs : Row) (g1 g2 : GeoPoint)
    (hm1 : coords_match fuzz get_edge_cases (sanitize_webscrape_name g1.name)
      (sanitize_pris_name (prs.getD 1 "")))
    (hm2 : coords_match fuzz get_edge_cases (sanitize_webscrape_name g2.name)
      (sanitize_pris_name (prs.getD 1 "")))
    (hlen : 14 < prs.length) (hne : g1.lat ≠ g2.lat) :
    merge_coordinates fuzz [prs] [g1, g2] = [set_coords prs g2]
    ∧ ((merge_coordinates fuzz [prs] [g1, g2]).headD []).getD 13 "" = g2.lat
    ∧ ((merge_coordinates fuzz [prs] [g1, g2]).headD []).getD 14 "" = g2.long
    ∧ merge_coordinates fuzz [prs] [g2, g1] = [set_coords prs g1]
    ∧ merge_coordinates fuzz [prs] [g1, g2] ≠ merge_coordinates fuzz [prs] [g2, g1]
    ∧ ∀ (pris : List Row) (geos : List GeoPoint) (i : Nat) (row : Row),
        i < pris.length → pris.getD i [] = row →
        (∀ g ∈ geos, ¬ coords_match fuzz get_edge_cases (sanitize_webscrape_name g.name)
          (sanitize_pris_name (row.getD 1 ""))) →
        (merge_coordinates fuzz pris geos).getD i [] = row := by
  have v1 : merge_row_visit fuzz get_edge_cases g1 prs = set_coords prs g1 := by
    rw [merge_row_visit_eq, if_pos hm1]
  have v1' : merge_row_visit fuzz get_edge_cases g2 prs = set_coords prs g2 := by
    rw [merge_row_visit_eq, if_pos hm2]
  have v2 : merge_row_visit fuzz get_edge_cases g2 (set_coords prs g1) = set_coords prs g2 := by
    rw [merge_row_visit_eq, getD_one_set_coords, if_pos hm2, set_coords_set_coords]
  have v2' : merge_row_visit fuzz get_edge_cases g1 (set_coords prs g2) = set_coords prs g1 := by
    rw [merge_row_visit_eq, getD_one_set_coords, if_pos hm1, set_coords_set_coords]
  have hA : merge_coordinates fuzz [prs] [g1, g2] = [set_coords prs g2] := by
    unfold merge_coordinates
    dsimp only
    simp only [List.foldl_cons, List.foldl_nil, List.map_cons, List.map_nil, v1, v2]
  have hB : merge_coordinates fuzz [prs] [g2, g1] = [set_coords prs g1] := by
    unfold merge_coordinates
    dsimp only
    simp only [List.foldl_cons, List.foldl_nil, List.map_cons, List.map_nil, v1', v2']
  have h13 : ((merge_coordinates fuzz [prs] [g1, g2]).headD []).getD 13 "" = g2.lat := by
    rw [hA]; exact getD_13_set_coords prs g2 hlen
  have h13' : ((merge_coordinates fuzz [prs] [g2, g1]).headD []).getD 13 "" = g1.lat := by
    rw [hB]; exact getD_13_set_coords prs g1 hlen
  have h14 : ((merge_coordinates fuzz [prs] [g1, g2]).headD []).getD 14 "" = g2.long := by
    rw [hA]; exact getD_14_set_coords prs g2 hlen
  refine ⟨hA, h13, h14, hB, ?_, ?_⟩
  · intro heq
    apply hne
    have h' := h13'
    rw [← heq, h13] at h'
    exact h'.symm
  · intro pris geos i row hi hrow hno
    rw [merge_coordinates_getD fuzz geos pris i hi, hrow,
      foldl_visit_no_match fuzz geos row hno]

theorem merge_last_write_wins_witness :
    merge_coordinates exact_score [reactor_row "FRANCE" "alpha"]
      [⟨"alpha", "1.5", "2.5"⟩, ⟨"alpha", "3.5", "4.5"⟩]
      = [set_coords (reactor_row "FRANCE" "alpha") ⟨"alpha", "3.5", "4.5"⟩] :=
  (merge_last_write_wins exact_score (reactor_row "FRANCE" "alpha") ⟨"alpha", "1.5", "2.5"⟩
    ⟨"alpha", "3.5", "4.5"⟩ (by decide) (by decide) (by decide) (by decide)).1

/-- Claim C1 (confirmed): merging the 3-row synthetic reactor table with
the 2-row synthetic geo table in which exactly one geo name ("alpha")
exactly matches one reactor name — the scorer giving 100 on identical
strings and every other pairing failing both the direct threshold and the
edge-case rule — writes that geo point's coordinates into exactly the
matching row and leaves the empty coordinate strings of the other two rows
untouched. -/
theorem merge_single_exact_match (fuzz : String → String → Nat)
    (hself : ∀ s, fuzz s s = 100)
    (hab : ¬ coords_match fuzz get_edge_cases "alpha" "beta")
    (hag : ¬ coords_match fuzz get_edge_cases "alpha" "gamma")
    (hda : ¬ coords_match fuzz get_edge_cases "delta" "alpha")
    (hdb : ¬ coords_match fuzz get_edge_cases "delta" "beta")
    (hdg : ¬ coords_match fuzz get_edge_cases "delta" "gamma") :
    merge_coordinates fuzz pris3 geo2 =
      [["FRANCE", "alpha", "PWR", "900", "", "", "", "", "", "", "1985-06-01", "", "",
        "42.0", "10.5"],
       reactor_row "JAPAN" "beta", reactor_row "CANADA" "gamma"] := by
  have hma : coords_match fuzz get_edge_cases "alpha" "alpha" :=
    Or.inl (by rw [hself]; norm_num)
  have v11 : merge_row_visit fuzz get_edge_cases (GeoPoint.mk "alpha" "10.5" "42.0")
      (reactor_row "FRANCE" "alpha")
      = ["FRANCE", "alpha", "PWR", "900", "", "", "", "", "", "", "1985-06-01", "", "",
         "42.0", "10.5"] := by
    rw [merge_row_visit_eq,
      show sanitize_webscrape_name (GeoPoint.mk "alpha" "10.5" "42.0").name = "alpha" from rfl,
      show sanitize_pris_name ((reactor_row "FRANCE" "alpha").getD 1 "") = "alpha" from rfl,
      if_pos hma]
    rfl
  have v12 : merge_row_visit fuzz get_edge_cases (GeoPoint.mk "alpha" "10.5" "42.0")
      (reactor_row "JAPAN" "beta") = reactor_row "JAPAN" "beta" := by
    rw [merge_row_visit_eq,
      show sanitize_webscrape_name (GeoPoint.mk "alpha" "10.5" "42.0").name = "alpha" from rfl,
      show sanitize_pris_name ((reactor_row "JAPAN" "beta").getD 1 "") = "beta" from rfl,
      if_neg hab]
  have v13 : merge_row_visit fuzz get_edge_cases (GeoPoint.mk "alpha" "10.5" "42.0")
      (reactor_row "CANADA" "gamma") = reactor_row "CANADA" "gamma" := by
    rw [merge_row_visit_eq,
      show sanitize_webscrape_name (GeoPoint.mk "alpha" "10.5" "42.0").name = "alpha" from rfl,
      show sanitize_pris_name ((reactor_row "CANADA" "gamma").getD 1 "") = "gamma" from rfl,
      if_neg hag]
  have v21 : merge_row_visit fuzz get_edge_cases (GeoPoint.mk "delta" "3.5" "7.0")
      ["FRANCE", "alpha", "PWR", "900", "", "", "", "", "", "", "1985-06-01", "", "",
       "42.0", "10.5"]
      = ["FRANCE", "alpha", "PWR", "900", "", "", "", "", "", "", "1985-06-01", "", "",
         "42.0", "10.5"] := by
    rw [merge_row_visit_eq,
      show sanitize_webscrape_name (GeoPoint.mk "delta" "3.5" "7.0").name = "delta" from rfl,
      show sanitize_pris_name ((["FRANCE", "alpha", "PWR", "900", "", "", "", "", "", "",
        "1985-06-01", "", "", "42.0", "10.5"] : Row).getD 1 "") = "alpha" from rfl,
      if_neg hda]
  have v22 : merge_row_visit fuzz get_edge_cases (GeoPoint.mk "delta" "3.5" "7.0")
      (reactor_row "JAPAN" "beta") = reactor_row "JAPAN" "beta" := by
    rw [merge_row_visit_eq,
      show sanitize_webscrape_name (GeoPoint.mk "delta" "3.5" "7.0").name = "delta" from rfl,
      show sanitize_pris_name ((reactor_row "JAPAN" "beta").getD 1 "") = "beta" from rfl,
      if_neg hdb]
  have v23 : merge_row_visit fuzz get_edge_cases (GeoPoint.mk "delta" "3.5" "7.0")
      (reactor_row "CANADA" "gamma") = reactor_row "CANADA" "gamma" := by
    rw [merge_row_visit_eq,
      show sanitize_webscrape_name (GeoPoint.mk "delta" "3.5" "7.0").name = "delta" from rfl,
      show sanitize_pris_name ((reactor_row "CANADA" "gamma").getD 1 "") = "gamma" from rfl,
      if_neg hdg]
  unfold merge_coordinates pris3 geo2
  dsimp only
  simp only [List.foldl_cons, List.foldl_nil, List.map_cons, List.map_nil,
    v11, v12, v13, v21, v22, v23]

theorem merge_single_exact_match_witness :
    merge_coordinates exact_score pris3 geo2 =
      [["FRANCE", "alpha", "PWR", "900", "", "", "", "", "", "", "1985-06-01", "", "",
        "42.0", "10.5"],
       reactor_row "JAPAN" "beta", reactor_row "CANADA" "gamma"] :=
  merge_single_exact_match exact_score (fun s => by simp [exact_score])
    (by decide) (by decide) (by decide) (by decide) (by decide)
